import Mathlib

/-!
Verification development for the panamax mirror tool.

This file gives a shallow embedding, in Lean, of the parts of the panamax
source that the specification claims talk about, and settles those claims.
The embedding models:

* `src/download.rs` : the hash-verifying downloader with staged rename
  (`one_download`, `download`, `download_with_sha256_file`,
  `copy_file_create_dir`, `copy_file_create_dir_with_sha256`,
  `move_if_exists`).  The file system is modelled as a partial map from
  path strings to file contents; SHA-256 itself is kept abstract as a
  parameter of the model.
* `src/crates.rs` : the crate-entry download path and URL construction
  (`sync_one_crate_entry`) and the per-line JSON handling of the index
  diff walk in `sync_crates_files`.
* `src/crates_index.rs` : the `config.json` rewrite (`rewrite_config_json`).
* `src/rustup.rs` : the rustup-init sync (`sync_one_init`,
  `sync_rustup_init`), channel history bookkeeping
  (`add_to_channel_history`, the history step of `sync_rustup_channel`)
  and the keep-set computation of `clean_old_files`.
* `src/verify.rs` : the interactive input grammar (`Input`,
  `Input.from_str`, `Input.check`, `handle_user_input`) and the per-line
  JSON handling of `verify_mirror`.

Rust `panic!` (out-of-bounds indexing, `unwrap` on a parse failure,
string slicing out of range) is modelled by `Option`, with `none`
standing for a panic.
-/

namespace Panamax

/-! ## Strings and paths -/

/-- File contents (and HTTP bodies, hashes) as lists of characters. -/
abbrev Content := List Char

/-- A file system: a partial map from path strings to contents.
`none` means the path does not exist. -/
abbrev Fs := String → Option Content

/-- The empty file system. -/
def Fs.empty : Fs := fun _ => none

/-- Write (create or replace) a file.  Models `fs::write` / `File::create`
followed by writing, with parent-directory creation elided (the model has
no directories). -/
def setFile (fs : Fs) (p : String) (c : Content) : Fs :=
  fun k => if k = p then some c else fs k

/-- Remove a file. -/
def removeFile (fs : Fs) (p : String) : Fs :=
  fun k => if k = p then none else fs k

/-- Models `fs::rename(from, to)`: `to` receives the contents of `from`
and `from` disappears. -/
def renameFile (fs : Fs) (src dst : String) : Fs :=
  fun k => if k = dst then fs src else if k = src then none else fs k

/-- Models `Path::join` with a relative component. -/
def pathJoin (a b : String) : String := a ++ "/" ++ b

/-! ## download.rs -/

/-- The download error taxonomy of `src/download.rs` (`DownloadError`),
restricted to the outcomes the model can produce.  `ok` stands for the
`Ok(())` result. -/
inductive DlResult where
  | ok : DlResult
  | notFound (status : Nat) : DlResult
  | mismatchedHash (expected actual : Content) : DlResult
deriving DecidableEq, Repr

/-- Models `append_to_path` of `src/download.rs`: append a suffix to the
OS string of a path. -/
def append_to_path (p : String) (suffix : String) : String := p ++ suffix

/-- Models `move_if_exists` of `src/download.rs`: rename `src` to `dst`
when `src` exists, do nothing otherwise. -/
def move_if_exists (fs : Fs) (src dst : String) : Fs :=
  match fs src with
  | some _ => renameFile fs src dst
  | none => fs

/-- Models `move_if_exists_with_sha256` of `src/download.rs`: move the
`.sha256` sidecar first, then the primary file. -/
def move_if_exists_with_sha256 (fs : Fs) (src dst : String) : Fs :=
  let fs1 := move_if_exists fs (append_to_path src ".sha256") (append_to_path dst ".sha256")
  move_if_exists fs1 src dst

/-- Models `copy_file_create_dir` of `src/download.rs`: if the
destination already exists the function returns `Ok` without copying;
otherwise it copies the source (`fs::copy` fails when the source is
missing, modelled as `none`). -/
def copy_file_create_dir (fs : Fs) (src dst : String) : Option Fs :=
  if (fs dst).isSome then
    some fs
  else
    match fs src with
    | some c => some (setFile fs dst c)
    | none => none

/-- Models `copy_file_create_dir_with_sha256` of `src/download.rs`:
copy the `.sha256` sidecar first, then the primary file. -/
def copy_file_create_dir_with_sha256 (fs : Fs) (src dst : String) : Option Fs :=
  match copy_file_create_dir fs (append_to_path src ".sha256") (append_to_path dst ".sha256") with
  | some fs1 => copy_file_create_dir fs1 src dst
  | none => none

/-- The text written to the `.notfound` sidecar: the formatted message
`Server returned <status>: <text>`. -/
def notfoundContent (status : Nat) (body : Content) : Content :=
  ("Server returned ".toList) ++ (toString status).toList ++ (": ".toList) ++ body

/-- Models `one_download` of `src/download.rs` for a response with HTTP
status `status` and body `body`.  The SHA-256 function is abstracted as
the parameter `sha256`.  Step by step, following the source: create the
`.part` file; on status 403/404 write the `.notfound` sidecar and fail
with `NotFound`; otherwise stream the body into the `.part` file while
hashing; if a hash was expected compare it, renaming `.part` to the
destination on a match and writing the `.badsha256` sidecar on a
mismatch; with no expected hash rename unconditionally. -/
def one_download (sha256 : Content → Content) (status : Nat) (body : Content)
    (path : String) (hash : Option Content) (fs : Fs) : DlResult × Fs :=
  let part_path := append_to_path path ".part"
  let fs1 := setFile fs part_path []
  if status = 403 ∨ status = 404 then
    (DlResult.notFound status, setFile fs1 (append_to_path path ".notfound") (notfoundContent status body))
  else
    let fs2 := setFile fs1 part_path body
    let f_hash := sha256 body
    match hash with
    | some h =>
      if f_hash = h then
        (DlResult.ok, move_if_exists fs2 part_path path)
      else
        (DlResult.mismatchedHash h f_hash, setFile fs2 (append_to_path path ".badsha256") f_hash)
    | none => (DlResult.ok, renameFile fs2 part_path path)

/-- The retry loop of `download`: a for loop over `0..=retries` with an
early break on success; `n` remaining extra attempts after the current
one.  The result is the first success, or the last failure. -/
def downloadLoop (sha256 : Content → Content) (status : Nat) (body : Content)
    (path : String) (hash : Option Content) : Nat → Fs → DlResult × Fs
  | 0, fs => one_download sha256 status body path hash fs
  | n + 1, fs =>
    match one_download sha256 status body path hash fs with
    | (DlResult.ok, fs1) => (DlResult.ok, fs1)
    | (_, fs1) => downloadLoop sha256 status body path hash n fs1

/-- Models `download` of `src/download.rs`: if the destination exists and
`force_download` is not set, the existing file is accepted outright when
no hash is expected, or accepted after an on-disk hash check; otherwise
the download loop runs `retries + 1` attempts. -/
def download (sha256 : Content → Content) (status : Nat) (body : Content)
    (path : String) (hash : Option Content) (retries : Nat) (force_download : Bool)
    (fs : Fs) : DlResult × Fs :=
  match fs path, force_download with
  | some existing, false =>
    (match hash with
     | some h =>
       if sha256 existing = h then (DlResult.ok, fs)
       else downloadLoop sha256 status body path hash retries fs
     | none => (DlResult.ok, fs))
  | _, _ => downloadLoop sha256 status body path hash retries fs

/-- UTF-8 width in bytes of one character. -/
def charUtf8Size (c : Char) : Nat :=
  if c.val < 0x80 then 1 else if c.val < 0x800 then 2 else if c.val < 0x10000 then 3 else 4

/-- UTF-8 byte length of a string given as a character list. -/
def utf8ByteLength (s : Content) : Nat := (s.map charUtf8Size).sum

/-- Models the Rust string slice `&s[..n]` (by *byte* index): take the
characters making up exactly the first `n` bytes.  `none` models the
panic that fires when the string is shorter than `n` bytes or when `n`
falls inside a multi-byte character. -/
def takeBytes : Nat → Content → Option Content
  | 0, _ => some []
  | _ + 1, [] => none
  | n + 1, c :: cs =>
    if charUtf8Size c ≤ n + 1 then
      (takeBytes (n + 1 - charUtf8Size c) cs).map (fun t => c :: t)
    else
      none

/-- Models `download_with_sha256_file` of `src/download.rs`: fetch the
`.sha256` sidecar document (its body is the parameter `sha256_data`),
slice its first 64 bytes as the expected hash — a panic (`none`) when the
document is too short — run `download` with that hash, and on success
write the sidecar document next to the destination. -/
def download_with_sha256_file (sha256 : Content → Content) (sha256_data : Content)
    (status : Nat) (body : Content) (path : String) (retries : Nat)
    (force_download : Bool) (fs : Fs) : Option (DlResult × Fs) :=
  match takeBytes 64 sha256_data with
  | none => none
  | some sha256_hash =>
    match download sha256 status body path (some sha256_hash) retries force_download fs with
    | (DlResult.ok, fs1) =>
      some (DlResult.ok, setFile fs1 (append_to_path path ".sha256") sha256_data)
    | (e, fs1) => some (e, fs1)

/-! ## crates.rs -/

/-- The `CrateEntry` structure of `src/crates.rs`: one line of an index
file. -/
structure CrateEntry where
  name : String
  vers : String
  cksum : String
  yanked : Bool
deriving DecidableEq, Repr

/-- The download URL built by `sync_one_crate_entry` of `src/crates.rs`:
the CDN form for the default source (`None`), the `/download` form for a
custom source. -/
def sync_one_crate_entry_url (source : Option String) (c : CrateEntry) : String :=
  match source with
  | some s => s ++ "/" ++ c.name ++ "/" ++ c.vers ++ "/download"
  | none =>
    "https://static.crates.io/crates/" ++ c.name ++ "/" ++ c.name ++ "-" ++ c.vers ++ ".crate"

/-- The destination path built by `sync_one_crate_entry` of
`src/crates.rs`:
`path.join("crates").join(&name).join(&vers).join("download")`. -/
def sync_one_crate_entry_file_path (path : String) (c : CrateEntry) : String :=
  pathJoin (pathJoin (pathJoin (pathJoin path "crates") c.name) c.vers) "download"

/-- The per-blob line walk of `sync_crates_files` of `src/crates.rs`.
The input is the per-line result of `serde_json::from_str::<CrateEntry>`
(`none` = parse failure).  The source unwraps each parse
(`serde_json::from_str(&line).unwrap()`), so a failed parse panics;
`none` models that panic, and `some` returns the queued entries. -/
def sync_crates_files_blob_entries : List (Option CrateEntry) → Option (List CrateEntry)
  | [] => some []
  | none :: _ => none
  | some c :: rest => (sync_crates_files_blob_entries rest).map (fun l => c :: l)

/-- The per-blob line walk of `verify_mirror` of `src/verify.rs`: a parse
failure is skipped (`Err(_) => continue`) and the walk continues with the
remaining lines. -/
def verify_mirror_blob_entries (parsed : List (Option CrateEntry)) : List CrateEntry :=
  parsed.filterMap id

/-! ## crates_index.rs -/

/-- The `ConfigJson` structure of `src/crates_index.rs`. -/
structure ConfigJson where
  dl : String
  api : String
deriving DecidableEq, Repr

/-- The commit performed by `rewrite_config_json` of
`src/crates_index.rs`: which reference it updates, its author signature
and its message, plus the path of the staged file. -/
structure CommitRecord where
  refname : String
  author_name : String
  author_email : String
  message : String
  staged_path : String
deriving DecidableEq, Repr

/-- Models `rewrite_config_json` of `src/crates_index.rs`: build the new
`config.json` contents from `base_url`
(for the `dl` field, the base URL, a slash, and the literal
crate-placeholder segment; `base_url` itself for `api`), write it to `config.json`,
stage it, and commit it onto `refs/heads/master` with the fixed
signature `Panamax <panamax@panamax>` and message
`Rewrite config.json`. -/
def rewrite_config_json (base_url : String) : ConfigJson × CommitRecord :=
  let crate_path := base_url ++ "/" ++ "\x7bcrate\x7d/\x7bcrate\x7d-\x7bversion\x7d.crate"
  ({ dl := crate_path, api := base_url },
   { refname := "refs/heads/master"
     author_name := "Panamax"
     author_email := "panamax@panamax"
     message := "Rewrite config.json"
     staged_path := "config.json" })

/-! ## rustup.rs -/

/-- The `Platforms` structure of `src/rustup.rs`. -/
structure Platforms where
  unix : List String
  windows : List String
deriving DecidableEq, Repr

/-- The local (archive) destination built by `sync_one_init` of
`src/rustup.rs`:
`path/rustup/archive/<version>/<platform>/rustup-init` or
`rustup-init.exe`. -/
def sync_one_init_local_path (path rustup_version platform : String) (is_exe : Bool) : String :=
  pathJoin (pathJoin (pathJoin (pathJoin (pathJoin path "rustup") "archive") rustup_version)
      platform)
    (if is_exe then "rustup-init.exe" else "rustup-init")

/-- The dist destination built by `sync_one_init` of `src/rustup.rs`:
`path/rustup/dist/<platform>/rustup-init` or `rustup-init.exe`. -/
def sync_one_init_archive_path (path platform : String) (is_exe : Bool) : String :=
  pathJoin (pathJoin (pathJoin path "rustup/dist") platform)
    (if is_exe then "rustup-init.exe" else "rustup-init")

/-- The source URL built by `sync_one_init` of `src/rustup.rs`. -/
def sync_one_init_source_url (source platform : String) (is_exe : Bool) : String :=
  if is_exe then
    source ++ "/rustup/dist/" ++ platform ++ "/rustup-init.exe"
  else
    source ++ "/rustup/dist/" ++ platform ++ "/rustup-init"

/-- The copy step of `sync_one_init` of `src/rustup.rs`: after the
download into the archive location, copy (with `.sha256` sidecar) from
the archive location to the dist location. -/
def sync_one_init_copy_step (fs : Fs) (path rustup_version platform : String)
    (is_exe : Bool) : Option Fs :=
  copy_file_create_dir_with_sha256 fs
    (sync_one_init_local_path path rustup_version platform is_exe)
    (sync_one_init_archive_path path platform is_exe)

/-- The `(platform, is_exe)` pairs with which `sync_rustup_init` of
`src/rustup.rs` invokes `sync_one_init`: the source iterates
`platforms.unix.iter().chain(platforms.windows.iter())` and passes the
literal `false` as `is_exe` for every element. -/
def sync_rustup_init_calls (platforms : Platforms) : List (String × Bool) :=
  (platforms.unix ++ platforms.windows).map (fun platform => (platform, false))

/-! ## rustup.rs: channel history and cleanup -/

/-- The `ChannelHistoryFile` of `src/rustup.rs`: the `versions` map from
a date to the list of relative paths of that generation, modelled as an
association list with unique keys. -/
abbrev ChannelHistoryFile := List (String × List String)

/-- Key lookup in the `versions` map. -/
def lookupVersion (date : String) : ChannelHistoryFile → Option (List String)
  | [] => none
  | (d, ps) :: rest => if d = date then some ps else lookupVersion date rest

/-- `HashMap::insert`: replace the entry with the same key, or add a new
entry. -/
def insertVersion (date : String) (paths : List String) : ChannelHistoryFile → ChannelHistoryFile
  | [] => [(date, paths)]
  | (d, ps) :: rest =>
    if d = date then (date, paths) :: rest else (d, ps) :: insertVersion date paths rest

/-- Models `add_to_channel_history` of `src/rustup.rs`.  The on-disk
history is `existing` (`none` models the `Err(Io)` case — the file is
absent or unreadable — which the source replaces by an empty map).  The
inserted generation lists the first component of every `(path, hash)`
pair of `files`. -/
def add_to_channel_history (existing : Option ChannelHistoryFile) (date : String)
    (files : List (String × String)) : ChannelHistoryFile :=
  insertVersion date (files.map Prod.fst) (existing.getD [])

/-- The history step at the end of `sync_rustup_channel` of
`src/rustup.rs`: only when `errors_occurred == 0` is
`add_to_channel_history` called and the file rewritten; otherwise the
function returns `Err(FailedDownloads)` and the history file is left as
it was. -/
def sync_rustup_channel_history_step (errors_occurred : Nat)
    (existing : Option ChannelHistoryFile) (date : String)
    (files : List (String × String)) : Option ChannelHistoryFile :=
  if errors_occurred = 0 then some (add_to_channel_history existing date files) else existing

/-- Lexicographic insertion into a sorted list of strings; `sortStrings`
models `Vec::sort` on the key list (keys are unique, so stability does
not matter). -/
def insertStr (x : String) : List String → List String
  | [] => [x]
  | y :: ys => if x < y then x :: y :: ys else y :: insertStr x ys

/-- Models `Vec::sort` on a list of strings. -/
def sortStrings (l : List String) : List String := l.foldr insertStr []

/-- Models `latest_dates_from_channel_history` of `src/rustup.rs`:
collect the keys, sort, reverse, truncate. -/
def latest_dates_from_channel_history (channel_history : ChannelHistoryFile)
    (versions : Nat) : List String :=
  ((sortStrings (channel_history.map Prod.fst)).reverse).take versions

/-- Split a character list at a separator, like Rust `str::split`. -/
def splitOnChar (sep : Char) : List Char → List (List Char)
  | [] => [[]]
  | c :: rest =>
    if c = sep then [] :: splitOnChar sep rest
    else
      match splitOnChar sep rest with
      | h :: t => (c :: h) :: t
      | [] => [[c]]

/-- `t.split('/').collect::<PathBuf>()`: a path as its components. -/
def pathComponents (s : String) : List (List Char) := splitOnChar '/' s.toList

/-- The inner loops of `clean_old_files` of `src/rustup.rs`: the paths of
the given dates of one history, converted to component form, in order. -/
def channel_paths (channel_history : ChannelHistoryFile) (dates : List String) :
    List (List (List Char)) :=
  dates.foldl (fun acc date =>
    match lookupVersion date channel_history with
    | some ts => acc ++ ts.map pathComponents
    | none => acc) []

/-- One iteration of the stable/beta/nightly loop of `clean_old_files`:
with no retention count the channel is skipped; with one, the channel
history is read — the `?` on `get_channel_history` makes a read failure
(`none`) abort the whole computation — and the paths of the latest
retained dates are added to the keep-set. -/
def clean_channel_step (histories : String → Option ChannelHistoryFile)
    (acc : Option (List (List (List Char)))) (p : String × Option Nat) :
    Option (List (List (List Char))) :=
  match acc with
  | none => none
  | some keep =>
    match p.2 with
    | none => some keep
    | some s =>
      match histories p.1 with
      | none => none
      | some history =>
        some (keep ++ channel_paths history (latest_dates_from_channel_history history s))

/-- The keep-set computation of `clean_old_files` of `src/rustup.rs`.
`histories channel` stands for the result of
`get_channel_history(path, channel)` (`none` = the read failed).  For
each of stable/beta/nightly with a retention count, the source calls
`get_channel_history(path, channel)?` — the `?` makes a read failure
abort the whole function, modelled by a `none` result.  For pinned
versions, a read failure is skipped (`Err(_) => continue`). -/
def clean_old_files_keep (histories : String → Option ChannelHistoryFile)
    (keep_stables keep_betas keep_nightlies : Option Nat)
    (pinned_rust_versions : Option (List String)) : Option (List (List (List Char))) :=
  match [("stable", keep_stables), ("beta", keep_betas),
      ("nightly", keep_nightlies)].foldl (clean_channel_step histories) (some []) with
  | none => none
  | some keep =>
    some ((pinned_rust_versions.getD []).foldl (fun acc version =>
      match histories version with
      | none => acc
      | some pinned => acc ++ channel_paths pinned (latest_dates_from_channel_history pinned 1))
      keep)

/-! ## verify.rs -/

/-- Models `str::parse::<usize>`: an optional leading plus sign, then at
least one ASCII digit, with an overflow error above `usize::MAX`. -/
def parse_usize (s : List Char) : Option Nat :=
  let digits := match s with
    | '+' :: rest => rest
    | _ => s
  if digits.isEmpty then none
  else if digits.all (fun c => c.isDigit) then
    let v := digits.foldl (fun acc c => acc * 10 + (c.toNat - 48)) 0
    if v < 2 ^ 64 then some v else none
  else none

/-- The `Input` enumeration of `src/verify.rs`; a `Range` carries the two
inclusive zero-based bounds of the `RangeInclusive`. -/
inductive Input where
  | Range (lo hi : Nat) : Input
  | Vec (v : List Nat) : Input
  | Usize (u : Nat) : Input
  | Ignore : Input
deriving DecidableEq, Repr

/-- Ascending insertion for natural numbers; models
`Vec::sort_unstable`. -/
def insertNat (x : Nat) : List Nat → List Nat
  | [] => [x]
  | y :: ys => if x ≤ y then x :: y :: ys else y :: insertNat x ys

/-- Models `Vec::sort_unstable` on a list of naturals. -/
def sortNat (l : List Nat) : List Nat := l.foldr insertNat []

/-- Models `Input::from_str` of `src/verify.rs` (the `FromStr`
implementation; it never fails, unparseable inputs become `Ignore`). -/
def input_from_str (s : List Char) : Input :=
  if s.isEmpty || (s.contains ' ' && s.contains '-') then Input.Ignore
  else if s.contains ' ' then
    let result := (splitOnChar ' ' s).filterMap (fun t =>
      match parse_usize t with
      | some u => if u ≠ 0 then some u else none
      | none => none)
    match result with
    | [] => Input.Ignore
    | [u] => Input.Usize (u - 1)
    | _ => Input.Vec ((sortNat result).map (fun u => u - 1))
  else if s.contains '-' then
    let bounds := (splitOnChar '-' s).filterMap (fun t =>
      match parse_usize t with
      | some u => if u ≠ 0 then some u else none
      | none => none)
    match bounds with
    | [a, b] =>
      let start := a - 1
      let stop := b - 1
      if start < stop then Input.Range start stop
      else if start = stop then Input.Usize start
      else Input.Ignore
    | _ => Input.Ignore
  else
    match parse_usize s with
    | none => Input.Ignore
    | some u => if u = 0 then Input.Ignore else Input.Usize (u - 1)

/-- Models `Input::check` of `src/verify.rs`: whether the value is a safe
index set for a vector of the given length. -/
def Input.check : Input → Nat → Bool
  | Input.Range _ hi, len => decide (hi < len)
  | Input.Usize u, len => decide (u < len)
  | Input.Vec v, len => v.all (fun u => decide (u < len))
  | Input.Ignore, _ => false

/-- Models `Vec::remove(u)`: the removed element and the remaining
vector; `none` models the out-of-bounds panic. -/
def vecRemove : List CrateEntry → Nat → Option (CrateEntry × List CrateEntry)
  | [], _ => none
  | x :: xs, 0 => some (x, xs)
  | x :: xs, n + 1 => (vecRemove xs n).map (fun p => (p.1, x :: p.2))

/-- Sequential `Vec::remove` at each index in turn (each removal shifts
the later elements), as the `for_each` loops of `handle_user_input`
do; the final value is the remaining vector. -/
def removeEach (l : List CrateEntry) (idxs : List Nat) : Option (List CrateEntry) :=
  idxs.foldl (fun acc u => acc.bind (fun xs => (vecRemove xs u).map Prod.snd)) (some l)

/-- Models the selection logic of `handle_user_input` of
`src/verify.rs`, after a non-EOF line `input` has been read and its
trailing newline popped: the returned list is the set of crates that
will be downloaded (`none` models an out-of-bounds panic in
`Vec::remove`). -/
def handle_user_input (input : List Char) (missing_crates : List CrateEntry) :
    Option (List CrateEntry) :=
  let inp := input_from_str input
  if inp.check missing_crates.length then
    some []
  else
    match inp with
    | Input.Ignore => some missing_crates
    | Input.Range lo hi => removeEach missing_crates (List.range' lo (hi + 1 - lo))
    | Input.Usize u => (vecRemove missing_crates u).map (fun p => [p.1])
    | Input.Vec v => removeEach missing_crates v

/-! ## Spec-side definitions

These two definitions follow the words of the specification (the shard
function of spec section 3), to be compared against the path the source
builds. -/

/-- The shard function exactly as the specification words it: length 1
gives `1`, length 2 gives `2`, length 3 gives `3/<n[0]>`, length at
least 4 gives `<n[0..2]>/<n[2..4]>`; length 0 is rejected. -/
def spec_shard (n : String) : Option String :=
  match n.toList with
  | [] => none
  | [_] => some "1"
  | [_, _] => some "2"
  | [c, _, _] => some ("3/" ++ String.mk [c])
  | a :: b :: c :: d :: _ => some (String.mk [a, b] ++ "/" ++ String.mk [c, d])

/-- The archive path the specification claims:
`crates/<shard>/<name>/<vers>/<name>-<vers>.crate`, relative to the
mirror root. -/
def spec_crate_archive_rel_path (name vers : String) : Option String :=
  (spec_shard name).map (fun sh =>
    "crates/" ++ sh ++ "/" ++ name ++ "/" ++ vers ++ "/" ++ name ++ "-" ++ vers ++ ".crate")

/-! ## Helper lemmas -/

theorem lookup_setFile_self (fs : Fs) (p : String) (c : Content) :
    setFile fs p c p = some c := by
  simp [setFile]

theorem lookup_setFile_ne (fs : Fs) (p k : String) (c : Content) (h : k ≠ p) :
    setFile fs p c k = fs k := by
  simp [setFile, h]

theorem string_data_inj {a b : String} (h : a.data = b.data) : a = b := by
  cases a; cases b; exact congrArg String.mk h

theorem string_append_left_cancel {s a b : String} (h : s ++ a = s ++ b) : a = b := by
  apply string_data_inj
  have hd : s.data ++ a.data = s.data ++ b.data := by
    have := congrArg String.data h
    simpa [String.data_append] using this
  exact List.append_cancel_left hd

theorem string_append_assoc (a b c : String) : a ++ b ++ c = a ++ (b ++ c) := by
  apply string_data_inj
  simp [String.data_append, List.append_assoc]

theorem self_ne_append {s t : String} (ht : t ≠ "") : s ≠ s ++ t := by
  intro h
  apply ht
  have h0 : s ++ "" = s ++ t := by simpa using h
  exact (string_append_left_cancel h0).symm

theorem append_ne_append {s : String} {a b : String} (hab : a ≠ b) : s ++ a ≠ s ++ b := by
  intro h
  exact hab (string_append_left_cancel h)

theorem charUtf8Size_pos (c : Char) : 0 < charUtf8Size c := by
  unfold charUtf8Size
  split
  · exact Nat.one_pos
  · split
    · exact Nat.zero_lt_succ 1
    · split
      · exact Nat.zero_lt_succ 2
      · exact Nat.zero_lt_succ 3

theorem utf8ByteLength_append (a b : Content) :
    utf8ByteLength (a ++ b) = utf8ByteLength a + utf8ByteLength b := by
  simp [utf8ByteLength]

theorem takeBytes_spec {s t : Content} :
    ∀ {n : Nat}, takeBytes n s = some t → (∃ rest, s = t ++ rest) ∧ utf8ByteLength t = n := by
  induction s generalizing t with
  | nil =>
    intro n h
    match n with
    | 0 =>
      simp [takeBytes] at h
      subst h
      exact ⟨⟨[], rfl⟩, rfl⟩
    | _ + 1 => simp [takeBytes] at h
  | cons c cs ih =>
    intro n h
    match n with
    | 0 =>
      simp [takeBytes] at h
      subst h
      exact ⟨⟨c :: cs, rfl⟩, rfl⟩
    | m + 1 =>
      rw [takeBytes] at h
      by_cases hsz : charUtf8Size c ≤ m + 1
      · rw [if_pos hsz] at h
        match ht : takeBytes (m + 1 - charUtf8Size c) cs with
        | none => rw [ht] at h; simp at h
        | some t0 =>
          rw [ht] at h
          simp at h
          obtain ⟨⟨rest, hrest⟩, hlen⟩ := ih ht
          refine ⟨⟨rest, by simp [← h, hrest]⟩, ?_⟩
          rw [← h]
          show utf8ByteLength ([c] ++ t0) = m + 1
          rw [utf8ByteLength_append, hlen]
          have : utf8ByteLength [c] = charUtf8Size c := by simp [utf8ByteLength]
          rw [this]
          omega
      · rw [if_neg hsz] at h
        simp at h

theorem takeBytes_le {n : Nat} {s t : Content} (h : takeBytes n s = some t) :
    n ≤ utf8ByteLength s := by
  obtain ⟨⟨rest, hrest⟩, hlen⟩ := takeBytes_spec h
  rw [hrest, utf8ByteLength_append, hlen]
  omega

theorem takeBytes_none_of_short {n : Nat} {s : Content} (h : utf8ByteLength s < n) :
    takeBytes n s = none := by
  match ht : takeBytes n s with
  | none => rfl
  | some t => exact absurd (takeBytes_le ht) (by omega)

theorem path_ne_part (p : String) : p ≠ p ++ ".part" :=
  self_ne_append (by decide)

theorem path_ne_badsha (p : String) : p ≠ p ++ ".badsha256" :=
  self_ne_append (by decide)

theorem badsha_ne_part (p : String) : p ++ ".badsha256" ≠ p ++ ".part" :=
  append_ne_append (by decide)

theorem one_download_mismatch (sha256 : Content → Content) {status : Nat} (body : Content)
    (path : String) {h : Content} (fs : Fs)
    (h403 : status ≠ 403) (h404 : status ≠ 404) (hne : sha256 body ≠ h) :
    one_download sha256 status body path (some h) fs =
      (DlResult.mismatchedHash h (sha256 body),
       setFile (setFile (setFile fs (path ++ ".part") []) (path ++ ".part") body)
         (path ++ ".badsha256") (sha256 body)) := by
  unfold one_download append_to_path
  rw [if_neg (by simp [h403, h404])]
  simp [hne]

theorem one_download_match (sha256 : Content → Content) {status : Nat} (body : Content)
    (path : String) {h : Content} (fs : Fs)
    (h403 : status ≠ 403) (h404 : status ≠ 404) (heq : sha256 body = h) :
    one_download sha256 status body path (some h) fs =
      (DlResult.ok,
       renameFile (setFile (setFile fs (path ++ ".part") []) (path ++ ".part") body)
         (path ++ ".part") path) := by
  unfold one_download append_to_path move_if_exists
  rw [if_neg (by simp [h403, h404])]
  simp [heq, setFile]

theorem downloadLoop_mismatch (sha256 : Content → Content) {status : Nat} (body : Content)
    (path : String) {h : Content}
    (h403 : status ≠ 403) (h404 : status ≠ 404) (hne : sha256 body ≠ h) :
    ∀ (n : Nat) (fs : Fs),
      (downloadLoop sha256 status body path (some h) n fs).1
          = DlResult.mismatchedHash h (sha256 body) ∧
      (downloadLoop sha256 status body path (some h) n fs).2 path = fs path ∧
      (downloadLoop sha256 status body path (some h) n fs).2 (path ++ ".badsha256")
          = some (sha256 body) := by
  intro n
  induction n with
  | zero =>
    intro fs
    rw [downloadLoop, one_download_mismatch sha256 body path fs h403 h404 hne]
    refine ⟨rfl, ?_, ?_⟩
    · dsimp only
      rw [lookup_setFile_ne _ _ _ _ (path_ne_badsha path),
        lookup_setFile_ne _ _ _ _ (path_ne_part path),
        lookup_setFile_ne _ _ _ _ (path_ne_part path)]
    · exact lookup_setFile_self _ _ _
  | succ n ih =>
    intro fs
    rw [downloadLoop, one_download_mismatch sha256 body path fs h403 h404 hne]
    refine ⟨(ih _).1, ?_, (ih _).2.2⟩
    rw [(ih _).2.1]
    rw [lookup_setFile_ne _ _ _ _ (path_ne_badsha path),
      lookup_setFile_ne _ _ _ _ (path_ne_part path),
      lookup_setFile_ne _ _ _ _ (path_ne_part path)]

theorem downloadLoop_match (sha256 : Content → Content) {status : Nat} (body : Content)
    (path : String) {h : Content}
    (h403 : status ≠ 403) (h404 : status ≠ 404) (heq : sha256 body = h) :
    ∀ (n : Nat) (fs : Fs),
      downloadLoop sha256 status body path (some h) n fs =
        (DlResult.ok,
         renameFile (setFile (setFile fs (path ++ ".part") []) (path ++ ".part") body)
           (path ++ ".part") path) := by
  intro n fs
  cases n with
  | zero => rw [downloadLoop, one_download_match sha256 body path fs h403 h404 heq]
  | succ n => rw [downloadLoop, one_download_match sha256 body path fs h403 h404 heq]

theorem download_of_absent (sha256 : Content → Content) (status : Nat) (body : Content)
    (path : String) (hash : Option Content) (retries : Nat) (fs : Fs)
    (hdest : fs path = none) :
    download sha256 status body path hash retries false fs
      = downloadLoop sha256 status body path hash retries fs := by
  unfold download
  rw [hdest]

/-! ## Claim theorems -/

/-- C3: for every `download` call carrying an expected hash (destination
initially absent, response not 403/404): when the computed hash of the
fetched body differs from the expected hash, the computed hash is
written to the `.badsha256` sibling, the call fails with
`MismatchedHash`, and no file appears at the canonical destination; when
the hashes match the staged `.part` file is renamed onto the
destination (and the `.part` name is gone), so a visible destination is
only ever produced by that rename — whenever the destination holds some
content afterwards, the hash matched and the content is the fetched
body. -/
theorem C3_download_hash_gate (sha256 : Content → Content) (status : Nat)
    (body : Content) (path : String) (h : Content) (retries : Nat) (fs : Fs)
    (h403 : status ≠ 403) (h404 : status ≠ 404) (hdest : fs path = none) :
    (sha256 body ≠ h →
      (download sha256 status body path (some h) retries false fs).1
          = DlResult.mismatchedHash h (sha256 body) ∧
      (download sha256 status body path (some h) retries false fs).2 (path ++ ".badsha256")
          = some (sha256 body) ∧
      (download sha256 status body path (some h) retries false fs).2 path = none) ∧
    (sha256 body = h →
      (download sha256 status body path (some h) retries false fs).1 = DlResult.ok ∧
      (download sha256 status body path (some h) retries false fs).2 path = some body ∧
      (download sha256 status body path (some h) retries false fs).2 (path ++ ".part")
          = none) ∧
    (∀ c, (download sha256 status body path (some h) retries false fs).2 path = some c →
      sha256 body = h ∧ c = body) := by
  rw [download_of_absent sha256 status body path (some h) retries fs hdest]
  refine ⟨?_, ?_, ?_⟩
  · intro hne
    obtain ⟨h1, h2, h3⟩ := downloadLoop_mismatch sha256 body path h403 h404 hne retries fs
    exact ⟨h1, h3, by rw [h2, hdest]⟩
  · intro heq
    rw [downloadLoop_match sha256 body path h403 h404 heq retries fs]
    refine ⟨rfl, ?_, ?_⟩
    · dsimp only
      show renameFile _ _ _ path = some body
      unfold renameFile
      rw [if_pos rfl]
      exact lookup_setFile_self _ _ _
    · dsimp only
      show renameFile _ _ _ (path ++ ".part") = none
      unfold renameFile
      rw [if_neg (Ne.symm (path_ne_part path)), if_pos rfl]
  · intro c hc
    by_cases heq : sha256 body = h
    · rw [downloadLoop_match sha256 body path h403 h404 heq retries fs] at hc
      dsimp only at hc
      unfold renameFile at hc
      rw [if_pos rfl] at hc
      rw [lookup_setFile_self] at hc
      exact ⟨heq, (Option.some.injEq _ _ ▸ hc).symm⟩
    · obtain ⟨_, h2, _⟩ := downloadLoop_mismatch sha256 body path h403 h404 heq retries fs
      rw [h2, hdest] at hc
      exact absurd hc (by simp)

/-- Witness for C3: a concrete mismatching download (identity as the
model hash function, fetched body `bad`, expected hash `expected`)
fails with `MismatchedHash`, records the computed hash in the
`.badsha256` sidecar, and leaves the destination absent. -/
theorem C3_download_hash_gate_witness :
    (download (fun c => c) 200 "bad".toList "crates/2/be/0.2/be-0.2.crate"
        (some "expected".toList) 2 false Fs.empty).1
      = DlResult.mismatchedHash "expected".toList "bad".toList ∧
    (download (fun c => c) 200 "bad".toList "crates/2/be/0.2/be-0.2.crate"
        (some "expected".toList) 2 false Fs.empty).2
        ("crates/2/be/0.2/be-0.2.crate" ++ ".badsha256")
      = some "bad".toList ∧
    (download (fun c => c) 200 "bad".toList "crates/2/be/0.2/be-0.2.crate"
        (some "expected".toList) 2 false Fs.empty).2 "crates/2/be/0.2/be-0.2.crate"
      = none := by
  have h := C3_download_hash_gate (fun c => c) 200 "bad".toList
    "crates/2/be/0.2/be-0.2.crate" "expected".toList 2 Fs.empty
    (by decide) (by decide) rfl
  exact h.1 (by decide)

/-- C10: in `download_with_sha256_file`, the expected hash handed to
`download` is exactly the first 64 bytes of the body fetched from
`url + ".sha256"` — a prefix of byte length 64, with no check that its
characters are hexadecimal; the unguarded slice panics when the body is
shorter than 64 bytes, so a non-panicking run requires the sidecar
document to be at least 64 bytes long. -/
theorem C10_sidecar_hash_slice (sha256 : Content → Content) (sha256_data : Content)
    (status : Nat) (body : Content) (path : String) (retries : Nat) (force_download : Bool)
    (fs : Fs) :
    (∀ hash64, takeBytes 64 sha256_data = some hash64 →
      (∃ rest, sha256_data = hash64 ++ rest) ∧ utf8ByteLength hash64 = 64 ∧
      download_with_sha256_file sha256 sha256_data status body path retries
          force_download fs ≠ none) ∧
    ((download_with_sha256_file sha256 sha256_data status body path retries
          force_download fs).isSome →
      64 ≤ utf8ByteLength sha256_data) ∧
    (utf8ByteLength sha256_data < 64 →
      download_with_sha256_file sha256 sha256_data status body path retries
          force_download fs = none) := by
  refine ⟨?_, ?_, ?_⟩
  · intro hash64 ht
    obtain ⟨hpre, hlen⟩ := takeBytes_spec ht
    refine ⟨hpre, hlen, ?_⟩
    unfold download_with_sha256_file
    rw [ht]
    dsimp only
    rcases hd : download sha256 status body path (some hash64) retries force_download fs with
      ⟨r, fs1⟩
    cases r <;> simp
  · intro hsome
    unfold download_with_sha256_file at hsome
    match ht : takeBytes 64 sha256_data with
    | none => rw [ht] at hsome; simp at hsome
    | some hash64 => exact takeBytes_le ht
  · intro hshort
    unfold download_with_sha256_file
    rw [takeBytes_none_of_short hshort]

/-- Witness for C10: on a concrete 64-character ASCII sidecar document,
the slice succeeds, equals the whole document (a 64-byte prefix), and
the run does not panic. -/
theorem C10_sidecar_hash_slice_witness :
    (∃ rest, List.replicate 64 'a' = List.replicate 64 'a' ++ rest) ∧
    utf8ByteLength (List.replicate 64 'a') = 64 ∧
    download_with_sha256_file (fun c => c) (List.replicate 64 'a') 200 "body".toList
        "rustup/release-stable.toml" 1 false Fs.empty ≠ none := by
  have h := C10_sidecar_hash_slice (fun c => c) (List.replicate 64 'a') 200 "body".toList
    "rustup/release-stable.toml" 1 false Fs.empty
  exact h.1 (List.replicate 64 'a') (by decide)

/-- C6: the claim distinguishes the two diff walks.  In the verification
walk a line that fails JSON parsing is skipped silently and the walk
continues over the remaining lines; in the synchronization walk
(`sync_crates_files`) the parse result is unwrapped, so one malformed
line halts the pass with a panic.  This theorem states the amended
claim: for every blob whose per-line parse results contain a failure,
`verify_mirror` collects exactly the entries of the successfully parsed
lines on both sides of the failure, while `sync_crates_files`
panics. -/
theorem C6_malformed_line_handling (pre post : List (Option CrateEntry)) :
    verify_mirror_blob_entries (pre ++ none :: post)
        = verify_mirror_blob_entries pre ++ verify_mirror_blob_entries post ∧
    sync_crates_files_blob_entries (pre ++ none :: post) = none := by
  constructor
  · simp [verify_mirror_blob_entries]
  · induction pre with
    | nil => rfl
    | cons x xs ih =>
      cases x with
      | none => rfl
      | some c =>
        show (sync_crates_files_blob_entries (xs ++ none :: post)).map _ = none
        rw [ih]
        rfl

/-- Counterexample for C6: a blob with one malformed line between two
well-formed ones makes the synchronization walk panic (`none`), even
though the verification walk skips the line — the claim that no
malformed line halts the synchronization pass is false. -/
theorem C6_counterexample :
    sync_crates_files_blob_entries
        [some ⟨"a", "0.1", "h_a", false⟩, none, some ⟨"be", "0.2", "h_be", false⟩] = none ∧
    verify_mirror_blob_entries
        [some ⟨"a", "0.1", "h_a", false⟩, none, some ⟨"be", "0.2", "h_be", false⟩]
      = [⟨"a", "0.1", "h_a", false⟩, ⟨"be", "0.2", "h_be", false⟩] := by
  constructor <;> rfl

/-- C5 (code evaluated at the failing input): with five missing crates
presented, the in-range single selection `3` yields an *empty* download
list — `Input::check` returns `true` exactly when the selection is in
bounds, yet `handle_user_input` answers `Ok(Vec::new())` on that branch
(its comment claims the branch handles out-of-bounds input), so nothing
is downloaded where the claim requires the third candidate.  The same
evaluation shows `0` selecting all five and an out-of-range `7`
panicking instead of selecting nothing. -/
theorem C5_failing_input_evaluation :
    handle_user_input "3".toList
        [⟨"c1", "0.1", "h1", false⟩, ⟨"c2", "0.2", "h2", false⟩, ⟨"c3", "0.3", "h3", false⟩,
          ⟨"c4", "0.4", "h4", false⟩, ⟨"c5", "0.5", "h5", false⟩] = some [] ∧
    handle_user_input "0".toList
        [⟨"c1", "0.1", "h1", false⟩, ⟨"c2", "0.2", "h2", false⟩, ⟨"c3", "0.3", "h3", false⟩,
          ⟨"c4", "0.4", "h4", false⟩, ⟨"c5", "0.5", "h5", false⟩]
      = some [⟨"c1", "0.1", "h1", false⟩, ⟨"c2", "0.2", "h2", false⟩, ⟨"c3", "0.3", "h3", false⟩,
          ⟨"c4", "0.4", "h4", false⟩, ⟨"c5", "0.5", "h5", false⟩] ∧
    handle_user_input "7".toList
        [⟨"c1", "0.1", "h1", false⟩, ⟨"c2", "0.2", "h2", false⟩, ⟨"c3", "0.3", "h3", false⟩]
      = none := by
  refine ⟨by decide, by decide, by decide⟩

/-- C7 (code evaluated at the failing input): `sync_rustup_init` chains
the Unix and Windows platform lists and passes the literal `false` as
`is_exe` for every platform, so a selected Windows target is fetched
from `rustup/dist/<T>/rustup-init` (no `.exe`) into an extension-less
archive file, where the claim (and the comment on `PLATFORMS_WINDOWS`)
requires the `.exe` variant. -/
theorem C7_windows_init_evaluation :
    sync_rustup_init_calls ⟨[], ["x86_64-pc-windows-msvc"]⟩
      = [("x86_64-pc-windows-msvc", false)] ∧
    sync_one_init_source_url "https://static.rust-lang.org" "x86_64-pc-windows-msvc" false
      = "https://static.rust-lang.org/rustup/dist/x86_64-pc-windows-msvc/rustup-init" ∧
    sync_one_init_local_path "m" "1.27.1" "x86_64-pc-windows-msvc" false
      = "m/rustup/archive/1.27.1/x86_64-pc-windows-msvc/rustup-init" ∧
    sync_one_init_source_url "https://static.rust-lang.org" "x86_64-pc-windows-msvc" true
      = "https://static.rust-lang.org/rustup/dist/x86_64-pc-windows-msvc/rustup-init.exe" := by
  refine ⟨by decide, by decide, by decide, by decide⟩

/-- C4: with a configured `base_url` B, the index-config rewrite replaces
`config.json` with an object whose `dl` field is
`<B>/{crate}/{crate}-{version}.crate` and whose `api` field is `<B>`,
committed onto `refs/heads/master` with the fixed author
`Panamax <panamax@panamax>` and the fixed message
`Rewrite config.json`. -/
theorem C4_rewrite_config_json (base_url : String) :
    (rewrite_config_json base_url).1.dl
        = base_url ++ "/\x7bcrate\x7d/\x7bcrate\x7d-\x7bversion\x7d.crate" ∧
    (rewrite_config_json base_url).1.api = base_url ∧
    (rewrite_config_json base_url).2.refname = "refs/heads/master" ∧
    (rewrite_config_json base_url).2.author_name = "Panamax" ∧
    (rewrite_config_json base_url).2.author_email = "panamax@panamax" ∧
    (rewrite_config_json base_url).2.message = "Rewrite config.json" ∧
    (rewrite_config_json base_url).2.staged_path = "config.json" := by
  refine ⟨?_, rfl, rfl, rfl, rfl, rfl, rfl⟩
  show base_url ++ "/" ++ "\x7bcrate\x7d/\x7bcrate\x7d-\x7bversion\x7d.crate"
      = base_url ++ "/\x7bcrate\x7d/\x7bcrate\x7d-\x7bversion\x7d.crate"
  rw [string_append_assoc]
  exact congrArg (fun t => base_url ++ t) (by decide)

/-- C1: the amended claim.  `sync_one_crate_entry` stores every archive
at the *unsharded* path `<root>/crates/<name>/<vers>/download` — the
shard directory never appears and the file name is the literal
`download`, not `<name>-<vers>.crate`. -/
theorem C1_crate_entry_storage_path (path name vers cksum : String) (yanked : Bool) :
    sync_one_crate_entry_file_path path ⟨name, vers, cksum, yanked⟩
      = path ++ "/crates/" ++ name ++ "/" ++ vers ++ "/download" := by
  have h1 : ∀ x : String, x ++ "/" ++ "crates" ++ "/" = x ++ "/crates/" := by
    intro x
    rw [string_append_assoc, string_append_assoc]
    exact congrArg (fun t => x ++ t) (by decide)
  have h2 : ∀ x : String, x ++ "/" ++ "download" = x ++ "/download" := by
    intro x
    rw [string_append_assoc]
    exact congrArg (fun t => x ++ t) (by decide)
  unfold sync_one_crate_entry_file_path pathJoin
  rw [h1, h2]

/-- Counterexample for C1: the spec-side sharded path of the entry
`a 0.1` is `crates/1/a/0.1/a-0.1.crate`, but the path the source builds
is `m/crates/a/0.1/download` under mirror root `m`, which differs from
the sharded location (and likewise for `be 0.2`). -/
theorem C1_counterexample :
    spec_crate_archive_rel_path "a" "0.1" = some "crates/1/a/0.1/a-0.1.crate" ∧
    spec_crate_archive_rel_path "be" "0.2" = some "crates/2/be/0.2/be-0.2.crate" ∧
    spec_crate_archive_rel_path "cde" "0.3" = some "crates/3/c/cde/0.3/cde-0.3.crate" ∧
    sync_one_crate_entry_file_path "m" ⟨"a", "0.1", "h_a", false⟩
      = "m/crates/a/0.1/download" ∧
    sync_one_crate_entry_file_path "m" ⟨"a", "0.1", "h_a", false⟩
      ≠ pathJoin "m" "crates/1/a/0.1/a-0.1.crate" ∧
    sync_one_crate_entry_file_path "m" ⟨"be", "0.2", "h_be", false⟩
      ≠ pathJoin "m" "crates/2/be/0.2/be-0.2.crate" := by
  refine ⟨by decide, by decide, by decide, by decide, by decide, by decide⟩

theorem lookupVersion_insertVersion_self (date : String) (paths : List String) :
    ∀ m : ChannelHistoryFile,
      lookupVersion date (insertVersion date paths m) = some paths := by
  intro m
  induction m with
  | nil => simp [insertVersion, lookupVersion]
  | cons p rest ih =>
    rcases p with ⟨d, ps⟩
    by_cases hd : d = date
    · simp [insertVersion, hd, lookupVersion]
    · simp [insertVersion, hd, lookupVersion, ih]

theorem lookupVersion_insertVersion_ne (d date : String) (paths : List String)
    (hne : d ≠ date) :
    ∀ m : ChannelHistoryFile,
      lookupVersion d (insertVersion date paths m) = lookupVersion d m := by
  intro m
  induction m with
  | nil => simp [insertVersion, lookupVersion, Ne.symm hne]
  | cons p rest ih =>
    rcases p with ⟨d0, ps⟩
    by_cases hd : d0 = date
    · subst hd
      simp [insertVersion, lookupVersion, Ne.symm hne]
    · simp [insertVersion, hd, lookupVersion, ih]

theorem length_insertVersion_not_mem (date : String) (paths : List String) :
    ∀ m : ChannelHistoryFile, date ∉ m.map Prod.fst →
      (insertVersion date paths m).length = m.length + 1 := by
  intro m
  induction m with
  | nil => intro _; rfl
  | cons p rest ih =>
    rcases p with ⟨d, ps⟩
    intro hmem
    simp at hmem
    have hd : d ≠ date := fun h => hmem.1 h.symm
    simp [insertVersion, hd, ih (by simpa using hmem.2)]

theorem length_insertVersion_mem (date : String) (paths : List String) :
    ∀ m : ChannelHistoryFile, date ∈ m.map Prod.fst →
      (insertVersion date paths m).length = m.length := by
  intro m
  induction m with
  | nil => intro h; simp at h
  | cons p rest ih =>
    rcases p with ⟨d, ps⟩
    intro hmem
    by_cases hd : d = date
    · simp [insertVersion, hd]
    · have : date ∈ rest.map Prod.fst := by
        simp at hmem
        rcases hmem with h | h
        · exact absurd h.symm hd
        · simpa using h
      simp [insertVersion, hd, ih this]

/-- C2: the amended claim.  On a fully successful channel sync
(`errors_occurred = 0`) the history gains exactly the generation
`date ↦ [first components of the download list]` — replacing any
existing generation with the same date, so the file grows by one entry
when the date is new and by zero when it repeats — and the generation
list is exactly the attempted download paths (the channel manifest and
its `.sha256` sidecar are *not* added); on any non-swallowed error the
history is left unchanged. -/
theorem C2_channel_history_step (errors_occurred : Nat)
    (existing : Option ChannelHistoryFile) (date : String)
    (files : List (String × String)) :
    (errors_occurred = 0 →
      sync_rustup_channel_history_step errors_occurred existing date files
        = some (add_to_channel_history existing date files) ∧
      lookupVersion date (add_to_channel_history existing date files)
        = some (files.map Prod.fst) ∧
      (∀ d, d ≠ date →
        lookupVersion d (add_to_channel_history existing date files)
          = lookupVersion d (existing.getD [])) ∧
      (date ∉ (existing.getD []).map Prod.fst →
        (add_to_channel_history existing date files).length
          = (existing.getD []).length + 1) ∧
      (date ∈ (existing.getD []).map Prod.fst →
        (add_to_channel_history existing date files).length
          = (existing.getD []).length)) ∧
    (errors_occurred ≠ 0 →
      sync_rustup_channel_history_step errors_occurred existing date files = existing) := by
  constructor
  · intro h0
    refine ⟨by simp [sync_rustup_channel_history_step, h0], ?_, ?_, ?_, ?_⟩
    · exact lookupVersion_insertVersion_self date (files.map Prod.fst) _
    · intro d hd
      exact lookupVersion_insertVersion_ne d date (files.map Prod.fst) hd _
    · exact length_insertVersion_not_mem date (files.map Prod.fst) _
    · exact length_insertVersion_mem date (files.map Prod.fst) _
  · intro h0
    simp [sync_rustup_channel_history_step, h0]

/-- Witness for C2: a concrete successful sync (zero errors) over an
existing one-generation history inserts the new date, keeps the old
generation, and grows the file by one entry. -/
theorem C2_channel_history_step_witness :
    sync_rustup_channel_history_step 0
        (some [("2024-05-31", ["dist/2024-05-31/old.tar.xz"])]) "2024-06-01"
        [("dist/2024-06-01/new.tar.xz", "h1")]
      = some (add_to_channel_history
          (some [("2024-05-31", ["dist/2024-05-31/old.tar.xz"])]) "2024-06-01"
          [("dist/2024-06-01/new.tar.xz", "h1")]) ∧
    lookupVersion "2024-06-01"
        (add_to_channel_history (some [("2024-05-31", ["dist/2024-05-31/old.tar.xz"])])
          "2024-06-01" [("dist/2024-06-01/new.tar.xz", "h1")])
      = some ["dist/2024-06-01/new.tar.xz"] ∧
    (add_to_channel_history (some [("2024-05-31", ["dist/2024-05-31/old.tar.xz"])])
        "2024-06-01" [("dist/2024-06-01/new.tar.xz", "h1")]).length
      = 2 := by
  have h := (C2_channel_history_step 0
    (some [("2024-05-31", ["dist/2024-05-31/old.tar.xz"])]) "2024-06-01"
    [("dist/2024-06-01/new.tar.xz", "h1")]).1 rfl
  exact ⟨h.1, h.2.1, h.2.2.2.1 (by decide)⟩

/-- Counterexample for C2: on a successful nightly sync the recorded
generation is exactly the download list — neither the channel manifest
`dist/channel-rust-nightly.toml` nor its `.sha256` sidecar appears in
it, refuting the claim that they are added to the generation list. -/
theorem C2_counterexample :
    sync_rustup_channel_history_step 0 none "2024-06-01"
        [("dist/2024-06-01/rust-std-nightly.tar.xz", "h1")]
      = some [("2024-06-01", ["dist/2024-06-01/rust-std-nightly.tar.xz"])] ∧
    "dist/channel-rust-nightly.toml" ∉ ["dist/2024-06-01/rust-std-nightly.tar.xz"] ∧
    "dist/channel-rust-nightly.toml.sha256" ∉ ["dist/2024-06-01/rust-std-nightly.tar.xz"] := by
  refine ⟨by decide, by decide, by decide⟩

theorem path_ne_sha (p : String) : p ≠ p ++ ".sha256" :=
  self_ne_append (by decide)

/-- C8: the amended claim.  `copy_file_create_dir` returns without
copying when the destination already exists, so the dist location keeps
whatever installer was already there; only when both the dist file and
its sidecar are absent does the copy step materialize the freshly
downloaded version-V installer at the dist location. -/
theorem C8_copy_keeps_existing (fs : Fs) (src dst : String) :
    ((fs dst).isSome → (fs (dst ++ ".sha256")).isSome →
      copy_file_create_dir_with_sha256 fs src dst = some fs) ∧
    (∀ c cs, fs dst = none → fs (dst ++ ".sha256") = none →
      fs src = some c → fs (src ++ ".sha256") = some cs →
      ∃ fs2, copy_file_create_dir_with_sha256 fs src dst = some fs2 ∧
        fs2 dst = some c ∧ fs2 (dst ++ ".sha256") = some cs) := by
  constructor
  · intro hdst hsha
    unfold copy_file_create_dir_with_sha256 copy_file_create_dir append_to_path
    rw [if_pos hsha]
    dsimp only
    rw [if_pos hdst]
  · intro c cs hdst hsha hsrc hsrcsha
    have hsrc_ne : src ≠ dst ++ ".sha256" := by
      intro h
      rw [h, hsha] at hsrc
      exact absurd hsrc (by simp)
    have hdst_ne : dst ≠ dst ++ ".sha256" := path_ne_sha dst
    unfold copy_file_create_dir_with_sha256 copy_file_create_dir append_to_path
    rw [if_neg (by simp [hsha]), hsrcsha]
    dsimp only
    rw [if_neg (by simp [lookup_setFile_ne fs (dst ++ ".sha256") dst cs hdst_ne, hdst])]
    rw [lookup_setFile_ne fs (dst ++ ".sha256") src cs hsrc_ne, hsrc]
    refine ⟨_, rfl, ?_, ?_⟩
    · exact lookup_setFile_self _ _ _
    · rw [lookup_setFile_ne _ dst _ c (Ne.symm hdst_ne)]
      exact lookup_setFile_self _ _ _

/-- Counterexample for C8: a dist location already holding the previous
installer (`OLD`) is left untouched by the copy step of
`sync_one_init`, even though the archive location holds the freshly
downloaded version-V installer (`NEW`) — the dist file does not equal
the version-V installer. -/
theorem C8_counterexample :
    (sync_one_init_copy_step
        (setFile (setFile (setFile (setFile Fs.empty
            "m/rustup/dist/x86_64-unknown-linux-gnu/rustup-init" "OLD".toList)
            "m/rustup/dist/x86_64-unknown-linux-gnu/rustup-init.sha256" "OLDSHA".toList)
            "m/rustup/archive/1.27.1/x86_64-unknown-linux-gnu/rustup-init" "NEW".toList)
            "m/rustup/archive/1.27.1/x86_64-unknown-linux-gnu/rustup-init.sha256"
            "NEWSHA".toList)
        "m" "1.27.1" "x86_64-unknown-linux-gnu" false).map
        (fun fs => fs "m/rustup/dist/x86_64-unknown-linux-gnu/rustup-init")
      = some (some "OLD".toList) ∧
    "OLD".toList ≠ "NEW".toList := by
  refine ⟨by decide, by decide⟩

/-- Witness for C8: when nothing is present at the dist location, the
copy step does install the freshly downloaded installer and its sidecar
there. -/
theorem C8_copy_keeps_existing_witness :
    ∃ fs2,
      copy_file_create_dir_with_sha256
          (setFile (setFile Fs.empty
              "m/rustup/archive/1.27.1/t/rustup-init" "NEW".toList)
            "m/rustup/archive/1.27.1/t/rustup-init.sha256" "NEWSHA".toList)
          "m/rustup/archive/1.27.1/t/rustup-init" "m/rustup/dist/t/rustup-init"
        = some fs2 ∧
      fs2 "m/rustup/dist/t/rustup-init" = some "NEW".toList ∧
      fs2 ("m/rustup/dist/t/rustup-init" ++ ".sha256") = some "NEWSHA".toList := by
  exact (C8_copy_keeps_existing _ _ _).2 "NEW".toList "NEWSHA".toList
    (by decide) (by decide) (by decide) (by decide)

theorem clean_channel_step_isSome (histories : String → Option ChannelHistoryFile)
    (keep : List (List (List Char))) (ch : String) (k : Option Nat)
    (hk : k.isSome → (histories ch).isSome) :
    (clean_channel_step histories (some keep) (ch, k)).isSome := by
  cases k with
  | none => simp [clean_channel_step]
  | some s =>
    rcases Option.isSome_iff_exists.mp (hk rfl) with ⟨h, hh⟩
    simp [clean_channel_step, hh]

/-- C9: the amended claim.  In `clean_old_files`, a failure to read the
history of one of the stable/beta/nightly channels that carries a
retention count aborts the whole cleanup with an error (the `?`
operator), rather than contributing an empty keep-set; only a pinned
version with an unreadable history is skipped non-fatally.  When the
enabled channels all read successfully, the keep-set computation
completes whatever the pinned histories do. -/
theorem C9_history_read_failure (histories : String → Option ChannelHistoryFile)
    (keep_stables keep_betas keep_nightlies : Option Nat)
    (pinned : Option (List String)) :
    ((keep_stables.isSome → (histories "stable").isSome) →
     (keep_betas.isSome → (histories "beta").isSome) →
     (keep_nightlies.isSome → (histories "nightly").isSome) →
     (clean_old_files_keep histories keep_stables keep_betas keep_nightlies pinned).isSome) ∧
    (keep_stables.isSome → histories "stable" = none →
     clean_old_files_keep histories keep_stables keep_betas keep_nightlies pinned = none) := by
  constructor
  · intro h1 h2 h3
    unfold clean_old_files_keep
    simp only [List.foldl_cons, List.foldl_nil]
    rcases Option.isSome_iff_exists.mp
      (clean_channel_step_isSome histories [] "stable" keep_stables h1) with ⟨k1, hk1⟩
    rw [hk1]
    rcases Option.isSome_iff_exists.mp
      (clean_channel_step_isSome histories k1 "beta" keep_betas h2) with ⟨k2, hk2⟩
    rw [hk2]
    rcases Option.isSome_iff_exists.mp
      (clean_channel_step_isSome histories k2 "nightly" keep_nightlies h3) with ⟨k3, hk3⟩
    rw [hk3]
    simp
  · intro hks hnone
    rcases Option.isSome_iff_exists.mp hks with ⟨s, hs⟩
    subst hs
    unfold clean_old_files_keep
    simp only [List.foldl_cons, List.foldl_nil]
    simp [clean_channel_step, hnone]

/-- Counterexample for C9: with a stable retention count of 1 and every
history read failing, the cleanup keep-set computation aborts (`none`) —
whereas the pinned-version path with the same failing histories
completes with an empty keep-set, showing only the pinned path is
non-fatal. -/
theorem C9_counterexample :
    clean_old_files_keep (fun _ => none) (some 1) none none none = none ∧
    clean_old_files_keep (fun _ => none) none none none (some ["1.70.0"]) = some [] := by
  refine ⟨by decide, by decide⟩

/-- Witness for C9: with a readable stable history and a pinned version
whose history read fails, the keep-set computation completes. -/
theorem C9_history_read_failure_witness :
    (clean_old_files_keep
        (fun ch => if ch = "stable" then some [("2024-06-01", ["dist/a.tar.xz"])] else none)
        (some 1) none none (some ["1.70.0"])).isSome := by
  exact (C9_history_read_failure
    (fun ch => if ch = "stable" then some [("2024-06-01", ["dist/a.tar.xz"])] else none)
    (some 1) none none (some ["1.70.0"])).1 (by decide) (by decide) (by decide)

end Panamax
